import Mathlib

/-!
Shallow embedding of the streaming speech-recognition wire-protocol subsystem:
the binary frame codec, the streaming client session logic, the relay
buffering behaviour, and the stop-session wait loop. Buffers are byte lists
(each entry a natural number below 256), multi-byte integers are big-endian,
and the signed 32-bit sequence number is stored in two's complement modulo
2 ^ 32, mirroring DataView semantics.
-/

namespace Resonance

/-- A byte, modelled as a natural number below 256; buffers are byte lists. -/
abbrev Byte := Nat

/-! ### Protocol constants (frame codec source, lines 18-41) -/

def PROTOCOL_VERSION : Nat := 1
def HEADER_SIZE_1 : Nat := 1
def HEADER_SIZE_2 : Nat := 2
def FULL_CLIENT_REQUEST : Nat := 1
def AUDIO_ONLY_REQUEST : Nat := 2
def SERVER_FULL_RESPONSE : Nat := 9
def SERVER_ACK : Nat := 11
def SERVER_ERROR_RESPONSE : Nat := 15
def JSON_SERIALIZATION : Nat := 1
def NO_COMPRESSION : Nat := 0
def GZIP_COMPRESSION : Nat := 1
def NO_SEQUENCE : Nat := 0
def POS_SEQUENCE : Nat := 1
def NEG_SEQUENCE : Nat := 2
def NEG_WITH_SEQUENCE : Nat := 3

/-! ### DataView primitives -/

/-- Big-endian byte encoding of a 32-bit unsigned value; DataView.setUint32
truncates its argument modulo 2 ^ 32, which the four modulo-256 limbs realise. -/
def u32be (n : Nat) : List Byte :=
  [n / 2 ^ 24 % 256, n / 2 ^ 16 % 256, n / 2 ^ 8 % 256, n % 256]

/-- Big-endian byte encoding of a 32-bit signed value; DataView.setInt32 stores
the two's complement of its argument, i.e. the argument modulo 2 ^ 32. -/
def i32be (z : Int) : List Byte :=
  u32be (z % (2 ^ 32 : Int)).toNat

/-- Byte at an offset of a buffer (0 outside the buffer; every use below is
range-checked first, mirroring the length guards of the source). -/
def byteAt (data : List Byte) (i : Nat) : Nat :=
  data.getD i 0

/-- DataView.getUint32 with big-endian byte order at an offset. -/
def readU32be (data : List Byte) (off : Nat) : Nat :=
  byteAt data off * 2 ^ 24 + byteAt data (off + 1) * 2 ^ 16 +
    byteAt data (off + 2) * 2 ^ 8 + byteAt data (off + 3)

/-- DataView.getInt32 with big-endian byte order: the unsigned read,
reinterpreted in two's complement. -/
def readI32be (data : List Byte) (off : Nat) : Int :=
  if readU32be data off < 2 ^ 31 then (readU32be data off : Int)
  else (readU32be data off : Int) - 2 ^ 32

/-! ### Frame encoders (frame codec source, lines 70-159) -/

/-- buildHeaderNoSeq: 8-byte header with header size 1 and a payload-size
field in bytes 4-7. -/
def buildHeaderNoSeq (messageType messageTypeFlags serializationMethod
    compressionType payloadSize : Nat) : List Byte :=
  [(PROTOCOL_VERSION <<< 4) ||| HEADER_SIZE_1,
   (messageType <<< 4) ||| messageTypeFlags,
   (serializationMethod <<< 4) ||| compressionType,
   0] ++ u32be payloadSize

/-- buildHeaderWithSeq: 12-byte header with header size 2, a sequence field in
bytes 4-7 and the payload-size field in bytes 8-11. -/
def buildHeaderWithSeq (messageType messageTypeFlags serializationMethod
    compressionType : Nat) (sequenceNumber : Int) (payloadSize : Nat) : List Byte :=
  [(PROTOCOL_VERSION <<< 4) ||| HEADER_SIZE_2,
   (messageType <<< 4) ||| messageTypeFlags,
   (serializationMethod <<< 4) ||| compressionType,
   0] ++ i32be sequenceNumber ++ u32be payloadSize

/-- buildAudioOnlyRequest: audio frame with header size 1; bytes 4-7 hold the
sequence number (negated when the chunk is the last one), and the raw audio
bytes follow at byte 8 with no payload-size field. -/
def buildAudioOnlyRequest (audioData : List Byte) (sequenceNumber : Int)
    (isLast : Bool) : List Byte :=
  [(PROTOCOL_VERSION <<< 4) ||| HEADER_SIZE_1,
   (AUDIO_ONLY_REQUEST <<< 4) ||| (if isLast then NEG_SEQUENCE else POS_SEQUENCE),
   (NO_COMPRESSION <<< 4) ||| NO_COMPRESSION,
   0] ++ i32be (if isLast then -sequenceNumber else sequenceNumber) ++ audioData

/-! ### JSON model

JSON values as exchanged on the wire. String contents and object keys are
UTF-8 byte lists, matching the byte-level view of the protocol; arrays and
objects are given by companion inductives so the serializer is structurally
recursive and computes by reduction. -/

mutual

inductive Json where
  | null : Json
  | bool (b : Bool) : Json
  | num (z : Int) : Json
  | str (s : List Nat) : Json
  | arr (elems : JsonArr) : Json
  | obj (fields : JsonObj) : Json

inductive JsonArr where
  | nil : JsonArr
  | cons (hd : Json) (tl : JsonArr) : JsonArr

inductive JsonObj where
  | nil : JsonObj
  | cons (key : List Nat) (val : Json) (tl : JsonObj) : JsonObj

end

/-- ASCII digit of a hexadecimal digit value, as emitted by JSON escapes. -/
def hexDigit (n : Nat) : Byte :=
  if n < 10 then 48 + n else 87 + n

/-- JSON.stringify escaping of one byte of string content. -/
def jsonEscapeByte (b : Byte) : List Byte :=
  if b = 34 then [92, 34]
  else if b = 92 then [92, 92]
  else if b = 8 then [92, 98]
  else if b = 9 then [92, 116]
  else if b = 10 then [92, 110]
  else if b = 12 then [92, 102]
  else if b = 13 then [92, 114]
  else if b < 32 then [92, 117, 48, 48, hexDigit (b / 16), hexDigit (b % 16)]
  else [b]

/-- Decimal digits of a natural number, as ASCII bytes. -/
def natDigits (n : Nat) : List Byte :=
  (Nat.toDigits 10 n).map Char.toNat

/-- Decimal rendering of an integer, as ASCII bytes. -/
def intBytes (z : Int) : List Byte :=
  if z < 0 then 45 :: natDigits z.natAbs else natDigits z.natAbs

mutual

/-- JSON.stringify of a JSON value, as UTF-8 bytes. -/
def jsonStringify : Json → List Byte
  | .null => [110, 117, 108, 108]
  | .bool true => [116, 114, 117, 101]
  | .bool false => [102, 97, 108, 115, 101]
  | .num z => intBytes z
  | .str s => 34 :: jsonEscape s ++ [34]
  | .arr es => 91 :: jsonStringifyArr es ++ [93]
  | .obj fs => 123 :: jsonStringifyObj fs ++ [125]

/-- Escaped body of a JSON string. -/
def jsonEscape : List Byte → List Byte
  | [] => []
  | b :: rest => jsonEscapeByte b ++ jsonEscape rest

/-- Comma-separated serialization of JSON array elements. -/
def jsonStringifyArr : JsonArr → List Byte
  | .nil => []
  | .cons e .nil => jsonStringify e
  | .cons e rest => jsonStringify e ++ [44] ++ jsonStringifyArr rest

/-- Comma-separated serialization of JSON object fields. -/
def jsonStringifyObj : JsonObj → List Byte
  | .nil => []
  | .cons k v .nil => 34 :: jsonEscape k ++ [34, 58] ++ jsonStringify v
  | .cons k v rest =>
      34 :: jsonEscape k ++ [34, 58] ++ jsonStringify v ++ [44] ++ jsonStringifyObj rest

end

/-- buildFullClientRequest: full-client-request frame, header size 1, flags
no-sequence, JSON serialization, no compression; payload is the UTF-8 JSON
serialization of the request parameters. -/
def buildFullClientRequest (reqParams : Json) : List Byte :=
  let jsonBytes := jsonStringify reqParams
  buildHeaderNoSeq FULL_CLIENT_REQUEST NO_SEQUENCE JSON_SERIALIZATION
    NO_COMPRESSION jsonBytes.length ++ jsonBytes

/-! ### Frame decoder (frame codec source, lines 164-207) -/

/-- Decoded server response, mirroring the record returned by
parseServerResponse: the four header fields and the payload string (none when
the payload is absent, empty, or out of bounds). -/
structure ParsedResponse where
  messageType : Nat
  messageTypeFlags : Nat
  serializationMethod : Nat
  compressionType : Nat
  payload : Option (List Byte)
deriving DecidableEq, Repr

/-- Bytes of the placeholder string stored for gzip payloads. -/
def gzipPlaceholder : List Byte :=
  ("[gzip compressed - needs decompression]").toList.map Char.toNat

/-- Strip trailing NUL characters from the decoded payload text. -/
def stripTrailingZeros (s : List Byte) : List Byte :=
  (s.reverse.dropWhile (fun b => b = 0)).reverse

/-- parseServerResponse. Returns none exactly when the source would throw a
RangeError reading the three header bytes (buffer shorter than 3 bytes);
every later read is guarded by an explicit length check, as in the source.
The payload-size field is read at offset headerSize * 4 and the payload is
sliced from offset headerSize * 4 + 4. -/
def parseServerResponse (data : List Byte) : Option ParsedResponse :=
  if data.length < 3 then none
  else
    let byte0 := byteAt data 0
    let headerSize := byte0 &&& 0x0f
    let byte1 := byteAt data 1
    let messageType := (byte1 >>> 4) &&& 0x0f
    let messageTypeFlags := byte1 &&& 0x0f
    let byte2 := byteAt data 2
    let serializationMethod := (byte2 >>> 4) &&& 0x0f
    let compressionType := byte2 &&& 0x0f
    let payloadSizeOffset := headerSize * 4
    if data.length < payloadSizeOffset + 4 then
      some ⟨messageType, messageTypeFlags, serializationMethod, compressionType, none⟩
    else
      let payloadSize := readU32be data payloadSizeOffset
      let payloadOffset := payloadSizeOffset + 4
      if 0 < payloadSize ∧ payloadOffset + payloadSize ≤ data.length then
        let payloadBytes := (data.drop payloadOffset).take payloadSize
        if compressionType = GZIP_COMPRESSION then
          some ⟨messageType, messageTypeFlags, serializationMethod, compressionType,
            some gzipPlaceholder⟩
        else
          some ⟨messageType, messageTypeFlags, serializationMethod, compressionType,
            some (stripTrailingZeros payloadBytes)⟩
      else
        some ⟨messageType, messageTypeFlags, serializationMethod, compressionType, none⟩

/-! ### Streaming client session (client source, lines 227-421) -/

/-- Session lifecycle states of the streaming client. -/
inductive ASRState where
  | idle
  | connecting
  | connected
  | recognizing
  | error
deriving DecidableEq, Repr

/-- Mutable state of a VolcengineASRClient instance: whether the socket is
present and open, the lifecycle state, and the audio sequence counter. -/
structure ClientState where
  wsOpen : Bool
  state : ASRState
  sequenceCounter : Int
deriving DecidableEq, Repr

/-- Client state right after a successful connect(): the socket is open, the
configuration frame has been sent (state recognizing) and the sequence
counter has been reset to 2 (the configuration frame is implicitly
sequence 1). -/
def connectedState : ClientState :=
  ⟨true, ASRState.recognizing, 2⟩

/-- sendAudio (client source, lines 335-349): when the socket is open, encode
one audio frame with the current sequence counter (negated in the frame when
isLast) and increment the counter; the increment is unconditional in the
source. When the socket is not open the chunk is dropped with a warning.
Returns the new state and the transmitted frame, if any. -/
def sendAudio (st : ClientState) (audioData : List Byte) (isLast : Bool) :
    ClientState × Option (List Byte) :=
  if st.wsOpen then
    let seq := st.sequenceCounter
    let message := buildAudioOnlyRequest audioData seq isLast
    ({ st with sequenceCounter := st.sequenceCounter + 1 }, some message)
  else
    (st, none)

/-- Run a list of sendAudio calls, collecting the transmitted frames. -/
def runSendAudio : ClientState → List (List Byte × Bool) → ClientState × List (List Byte)
  | st, [] => (st, [])
  | st, c :: rest =>
    let step := sendAudio st c.1 c.2
    let next := runSendAudio step.1 rest
    (next.1, (match step.2 with | some f => [f] | none => []) ++ next.2)

/-- Signed 32-bit sequence number carried in bytes 4-7 of an audio frame. -/
def frameSeqInt (frame : List Byte) : Int :=
  readI32be frame 4

/-! ### Server payload interpretation (client source, lines 368-409) -/

/-- Lookup of an object field by key, modelling property access. -/
def jsonLookup : JsonObj → List Byte → Option Json
  | .nil, _ => none
  | .cons k v tl, key => if k = key then some v else jsonLookup tl key

/-- Optional chaining: accessing a property yields a value only on objects. -/
def jsGet (j : Json) (key : List Byte) : Option Json :=
  match j with
  | .obj fields => jsonLookup fields key
  | _ => none

/-- JavaScript truthiness of an optionally-present JSON value. -/
def jsTruthy : Option Json → Bool
  | none => false
  | some .null => false
  | some (.bool b) => b
  | some (.num z) => z != 0
  | some (.str s) => !s.isEmpty
  | some (.arr _) => true
  | some (.obj _) => true

/-- Whether an optionally-present JSON value is exactly the boolean true,
modelling a strict-equality comparison with true. -/
def isTrueJson : Option Json → Bool
  | some (.bool true) => true
  | _ => false

def keyResult : List Byte := ("result").toList.map Char.toNat
def keyPayloadMsg : List Byte := ("payload_msg").toList.map Char.toNat
def keyText : List Byte := ("text").toList.map Char.toNat
def keyDefinite : List Byte := ("definite").toList.map Char.toNat
def keyUtterances : List Byte := ("utterances").toList.map Char.toNat

/-- result?.result?.text followed by result?.payload_msg?.result?.text with a
truthiness fallback to the empty string. -/
def extractText (j : Json) : Json :=
  let t1 := (jsGet j keyResult).bind (fun r => jsGet r keyText)
  let t2 := ((jsGet j keyPayloadMsg).bind (fun p => jsGet p keyResult)).bind
    (fun r => jsGet r keyText)
  if jsTruthy t1 then t1.getD Json.null
  else if jsTruthy t2 then t2.getD Json.null
  else Json.str []

/-- result?.result?.definite strictly equal to true, or the same under
payload_msg. -/
def extractDefinite (j : Json) : Bool :=
  isTrueJson ((jsGet j keyResult).bind (fun r => jsGet r keyDefinite)) ||
    isTrueJson (((jsGet j keyPayloadMsg).bind (fun p => jsGet p keyResult)).bind
      (fun r => jsGet r keyDefinite))

/-- result?.result?.utterances with the payload_msg fallback, defaulting to an
empty array. -/
def extractUtterances (j : Json) : Json :=
  let u1 := (jsGet j keyResult).bind (fun r => jsGet r keyUtterances)
  let u2 := ((jsGet j keyPayloadMsg).bind (fun p => jsGet p keyResult)).bind
    (fun r => jsGet r keyUtterances)
  if jsTruthy u1 then u1.getD Json.null
  else if jsTruthy u2 then u2.getD Json.null
  else Json.arr JsonArr.nil

/-- UTF-8 bytes of the fallback error message used when a server-error frame
carries no payload text. -/
def serverErrorFallback : List Byte :=
  ("识别服务返回错误").toUTF8.toList.map (fun b => b.toNat)

/-- Callback invocations surfaced by the client to its caller. -/
inductive CallbackEvent where
  | onPartialResult (text : Json)
  | onFinalResult (text : Json) (utterances : Json)
  | onError (message : List Byte)

/-- Dispatch on a decoded server response (client source, lines 377-405). For
a full-server-response with a truthy (non-null, nonempty) payload whose JSON
parses, the definite flag selects onFinalResult versus onPartialResult; JSON
parse failures are swallowed. A server-ack produces no callback. A
server-error frame fires onError with the payload text, or a fallback message
when the payload is null or empty. The lifecycle state is never modified
here, and JSON.parse of the environment is passed in as parseJson. Totality
models the surrounding try/catch: no input throws. -/
def handleResponse (parseJson : List Byte → Option Json) (st : ClientState)
    (response : ParsedResponse) : ClientState × List CallbackEvent :=
  if response.messageType = SERVER_FULL_RESPONSE then
        match response.payload with
        | some p =>
          if p.isEmpty then (st, [])
          else
            match parseJson p with
            | some result =>
              if extractDefinite result then
                (st, [CallbackEvent.onFinalResult (extractText result)
                  (extractUtterances result)])
              else
                (st, [CallbackEvent.onPartialResult (extractText result)])
            | none => (st, [])
        | none => (st, [])
  else if response.messageType = SERVER_ACK then (st, [])
  else if response.messageType = SERVER_ERROR_RESPONSE then
    (st, [CallbackEvent.onError (match response.payload with
      | some p => if p.isEmpty then serverErrorFallback else p
      | none => serverErrorFallback)])
  else (st, [])

/-- handleBinaryMessage (client source, lines 368-409): the short-frame guard
(frames shorter than 4 bytes are dropped with a warning before any decoding),
the decoder, and the dispatch on the decoded response. -/
def handleBinaryMessage (parseJson : List Byte → Option Json) (st : ClientState)
    (data : List Byte) : ClientState × List CallbackEvent :=
  if data.length < 4 then (st, [])
  else
    match parseServerResponse data with
    | none => (st, [])
    | some response => handleResponse parseJson st response

/-! ### Relay (relay source with the pendingQueue buffer, lines 193-278) -/

/-- One WebSocket message from the caller: a binary frame or a text frame. -/
inductive RelayMsg where
  | bin (bytes : List Byte)
  | txt (s : String)
deriving DecidableEq, Repr

/-- Relay-side connection state: whether the upstream socket exists and is
open, and the queue of caller frames buffered before upstream-open. -/
structure RelayState where
  upstreamReady : Bool
  pendingQueue : List RelayMsg
deriving DecidableEq, Repr

/-- Events driving the caller-to-upstream direction of the relay. -/
inductive RelayEvent where
  | clientMessage (m : RelayMsg)
  | upstreamOpen

/-- One relay event step, returning the messages forwarded to the upstream.
A caller message is forwarded at once when the upstream is open and appended
to pendingQueue otherwise; upstream-open flushes the queue in order and
clears it. -/
def relayStep (st : RelayState) : RelayEvent → RelayState × List RelayMsg
  | .clientMessage m =>
    if st.upstreamReady then (st, [m])
    else ({ st with pendingQueue := st.pendingQueue ++ [m] }, [])
  | .upstreamOpen => (⟨true, []⟩, st.pendingQueue)

/-- Run a sequence of relay events, concatenating the forwarded messages. -/
def relayRun : RelayState → List RelayEvent → RelayState × List RelayMsg
  | st, [] => (st, [])
  | st, e :: rest =>
    let step := relayStep st e
    let next := relayRun step.1 rest
    (next.1, step.2 ++ next.2)

/-- Relay state when the caller connection is accepted: no upstream yet and an
empty buffer. -/
def relayInit : RelayState :=
  ⟨false, []⟩

/-! ### stopSession (hook source, lines 249-285, real branch) -/

/-- Observable effects of the stop path. The errorAt constructor exists so
that the absence of any error callback in this path can be stated; the source
loop body never produces one. -/
inductive StopEffect where
  | sendFrame (frame : List Byte)
  | cleanupAudio
  | disconnectAt (waitedMs : Nat)
  | errorAt (waitedMs : Nat)
deriving DecidableEq, Repr

/-- Whether a stop effect is an error callback. -/
def StopEffect.isErrorEffect : StopEffect → Bool
  | .errorAt _ => true
  | _ => false

/-- The polling loop armed by stopSession: every 200 ms it adds 200 to waited
and, once the captured finalText value is truthy or waited has reached 8000,
clears the interval and disconnects. The first argument is the finalText
value captured by the interval closure when stopSession ran. ticksLeft is
fuel bounding the recursion; 40 ticks of 200 ms always reach the 8000 ms
bound, so the fuel is never exhausted. -/
def stopWaitGo (finalText0 : Bool) : Nat → Nat → List StopEffect
  | 0, _ => []
  | ticksLeft + 1, waited =>
    let w := waited + 200
    if finalText0 ∨ 8000 ≤ w then [StopEffect.disconnectAt w]
    else stopWaitGo finalText0 ticksLeft w

/-- Effects of the stop-session wait loop from its start. -/
def stopWaitEffects (finalText0 : Bool) : List StopEffect :=
  stopWaitGo finalText0 40 0

/-- stopSession, real (non-mock) branch: send the terminal chunk through
sendAudio with an empty buffer and isLast true, clean up audio capture, then
arm the bounded wait loop. -/
def stopSessionReal (st : ClientState) (finalText0 : Bool) :
    ClientState × List StopEffect :=
  let step := sendAudio st [] true
  (step.1,
    (match step.2 with | some f => [StopEffect.sendFrame f] | none => []) ++
      [StopEffect.cleanupAudio] ++ stopWaitEffects finalText0)

/-! ### Codec arithmetic lemmas -/

theorem readU32be_u32be_append (n : Nat) (rest : List Byte) :
    readU32be (u32be n ++ rest) 0 = n % 2 ^ 32 := by
  show n / 2 ^ 24 % 256 * 2 ^ 24 + n / 2 ^ 16 % 256 * 2 ^ 16 +
    n / 2 ^ 8 % 256 * 2 ^ 8 + n % 256 = n % 2 ^ 32
  omega

theorem readI32be_i32be_append (z : Int) (rest : List Byte)
    (h1 : -(2 ^ 31) ≤ z) (h2 : z < 2 ^ 31) :
    readI32be (i32be z ++ rest) 0 = z := by
  unfold readI32be i32be
  rw [readU32be_u32be_append]
  split <;> omega

/-- The signed sequence number read back from bytes 4-7 of an audio frame is
the one passed to the encoder, negated when the chunk was flagged last. -/
theorem frameSeqInt_buildAudio (d : List Byte) (z : Int) (isLast : Bool)
    (h1 : 0 < z) (h2 : z < 2 ^ 31) :
    frameSeqInt (buildAudioOnlyRequest d z isLast) = if isLast then -z else z := by
  have h : frameSeqInt (buildAudioOnlyRequest d z isLast)
      = readI32be (i32be (if isLast then -z else z) ++ d) 0 := rfl
  rw [h, readI32be_i32be_append]
  · cases isLast <;> simp <;> omega
  · cases isLast <;> simp <;> omega

/-! ### sendAudio run lemmas -/

theorem runSendAudio_append (st : ClientState) (xs ys : List (List Byte × Bool)) :
    runSendAudio st (xs ++ ys) =
      ((runSendAudio (runSendAudio st xs).1 ys).1,
        (runSendAudio st xs).2 ++ (runSendAudio (runSendAudio st xs).1 ys).2) := by
  induction xs generalizing st with
  | nil => simp [runSendAudio]
  | cons c rest ih => simp [runSendAudio, ih]

theorem runSendAudio_replicate (d : List Byte) (k : Nat) (st : ClientState)
    (hopen : st.wsOpen = true) :
    runSendAudio st (List.replicate k (d, false)) =
      ({ st with sequenceCounter := st.sequenceCounter + k },
        (List.range k).map
          (fun i : Nat => buildAudioOnlyRequest d (st.sequenceCounter + (i : Int)) false)) := by
  induction k generalizing st with
  | zero =>
    obtain ⟨w, s, c⟩ := st
    simp [runSendAudio]
  | succ k ih =>
    obtain ⟨w, s, c⟩ := st
    have hw : w = true := hopen
    subst hw
    rw [List.replicate_succ]
    have h1 : sendAudio ⟨true, s, c⟩ d false
        = (⟨true, s, c + 1⟩, some (buildAudioOnlyRequest d c false)) := by
      simp [sendAudio]
    have h2 := ih ⟨true, s, c + 1⟩ rfl
    simp only [runSendAudio, h1, h2]
    refine Prod.ext ?_ ?_
    · show ClientState.mk true s (c + 1 + (k : Int)) = ⟨true, s, c + ((k + 1 : Nat) : Int)⟩
      have h3 : c + 1 + (k : Int) = c + ((k + 1 : Nat) : Int) := by push_cast; ring
      rw [h3]
    · show buildAudioOnlyRequest d c false ::
          (List.range k).map (fun i : Nat => buildAudioOnlyRequest d (c + 1 + (i : Int)) false)
        = (List.range (k + 1)).map (fun i : Nat => buildAudioOnlyRequest d (c + (i : Int)) false)
      rw [List.range_succ_eq_map, List.map_cons, List.map_map]
      refine congrArg₂ _ ?_ ?_
      · norm_num
      · refine List.map_congr_left fun i _ => ?_
        have h4 : c + 1 + (i : Int) = c + ((i + 1 : Nat) : Int) := by push_cast; ring
        simp [Function.comp, h4]

/-- C1: for every session started by connect() and every sequence of N calls
to sendAudio on an open socket in which only the last call has isLast true,
the sequence numbers encoded big-endian into bytes 4-7 of the audio frames
are 2, 3, ..., N for the first N - 1 calls, strictly increasing by 1, and the
final call encodes the negation of what the next number would have been,
-(N + 1). The bound N + 1 < 2 ^ 31 keeps the signed 32-bit field from
wrapping. -/
theorem audio_sequence_numbers (N : Nat) (d dLast : List Byte)
    (hN : 1 ≤ N) (hbound : N + 1 < 2 ^ 31) :
    ((runSendAudio connectedState
        (List.replicate (N - 1) (d, false) ++ [(dLast, true)])).2).map frameSeqInt
      = (List.range (N - 1)).map (fun i : Nat => (2 : Int) + (i : Int))
          ++ [-((N : Int) + 1)] := by
  rw [runSendAudio_append, runSendAudio_replicate d (N - 1) connectedState rfl]
  have hc : connectedState.sequenceCounter = 2 := rfl
  have hlast : runSendAudio
      ({ connectedState with sequenceCounter := connectedState.sequenceCounter + ↑(N - 1) })
      [(dLast, true)]
      = (⟨true, ASRState.recognizing, 2 + ↑(N - 1) + 1⟩,
         [buildAudioOnlyRequest dLast (2 + ↑(N - 1)) true]) := by
    simp [runSendAudio, sendAudio, connectedState]
  rw [hlast]
  simp only [List.map_append, List.map_map, List.map_cons, List.map_nil, hc]
  refine congrArg₂ _ ?_ ?_
  · refine List.map_congr_left fun i hi => ?_
    have hi2 : i < N - 1 := List.mem_range.mp hi
    have := frameSeqInt_buildAudio d (2 + (i : Int)) false (by omega) (by omega)
    simpa [Function.comp] using this
  · have hb1 : (0 : Int) < 2 + ((N - 1 : Nat) : Int) := by omega
    have hb2 : 2 + ((N - 1 : Nat) : Int) < 2 ^ 31 := by omega
    have h5 := frameSeqInt_buildAudio dLast (2 + ((N - 1 : Nat) : Int)) true hb1 hb2
    rw [h5]
    have h6 : 2 + ((N - 1 : Nat) : Int) = (N : Int) + 1 := by omega
    rw [h6]
    simp

/-- Witness for audio_sequence_numbers at N = 3. -/
theorem audio_sequence_numbers_witness :
    1 ≤ 3 ∧ (3 : Nat) + 1 < 2 ^ 31 ∧
    ((runSendAudio connectedState
        (List.replicate (3 - 1) (([9], false) : List Byte × Bool) ++ [(([], true) : List Byte × Bool)])).2).map frameSeqInt
      = (List.range (3 - 1)).map (fun i : Nat => (2 : Int) + (i : Int)) ++ [-((3 : Int) + 1)] :=
  ⟨by decide, by decide, audio_sequence_numbers 3 [9] [] (by decide) (by decide)⟩

/-- C5 counterexample: a sendAudio call with isLast true on an open socket
still increments the sequence counter; from the post-connect state with
counter 2, the counter after the final call is 3, not 2 as the claim states. -/
theorem sendAudio_last_still_increments :
    (sendAudio connectedState [] true).1.sequenceCounter = 3 ∧
      ¬ (sendAudio connectedState [] true).1.sequenceCounter
          = connectedState.sequenceCounter := by
  constructor <;> decide

/-- C5 amended: for every call to sendAudio that transmits a chunk (socket
open), the sequence counter after the call equals its value before the call
plus 1, both when isLast is false and when isLast is true — the source
increments the counter unconditionally; only the value encoded in the frame
is negated on the last chunk. -/
theorem sendAudio_always_increments (st : ClientState) (d : List Byte)
    (isLast : Bool) (h : st.wsOpen = true) :
    (sendAudio st d isLast).1.sequenceCounter = st.sequenceCounter + 1 := by
  simp [sendAudio, h]

/-- Witness for sendAudio_always_increments on the post-connect state. -/
theorem sendAudio_always_increments_witness :
    connectedState.wsOpen = true ∧
      (sendAudio connectedState [7] true).1.sequenceCounter
        = connectedState.sequenceCounter + 1 :=
  ⟨rfl, sendAudio_always_increments connectedState [7] true rfl⟩

/-! ### Decoding with header units 2 -/

/-- C2 counterexample: decode does not read the sequence number. Two frames
with header units 2 that differ only in bytes 4-7 (sequence 5 versus 6)
decode to identical results, so no function of the decoded result can return
the sequence number of the frame — decode does not make it available to the
caller. -/
theorem decode_ignores_sequence_bytes :
    parseServerResponse [18, 144, 16, 0, 0, 0, 0, 5, 0, 0, 0, 1, 65]
      = parseServerResponse [18, 144, 16, 0, 0, 0, 0, 6, 0, 0, 0, 1, 65] ∧
    frameSeqInt [18, 144, 16, 0, 0, 0, 0, 5, 0, 0, 0, 1, 65] = 5 ∧
    frameSeqInt [18, 144, 16, 0, 0, 0, 0, 6, 0, 0, 0, 1, 65] = 6 ∧
    ¬ ∃ g : Option ParsedResponse → Int,
        g (parseServerResponse [18, 144, 16, 0, 0, 0, 0, 5, 0, 0, 0, 1, 65])
          = frameSeqInt [18, 144, 16, 0, 0, 0, 0, 5, 0, 0, 0, 1, 65] ∧
        g (parseServerResponse [18, 144, 16, 0, 0, 0, 0, 6, 0, 0, 0, 1, 65])
          = frameSeqInt [18, 144, 16, 0, 0, 0, 0, 6, 0, 0, 0, 1, 65] := by
  refine ⟨by decide, by decide, by decide, ?_⟩
  rintro ⟨g, hg1, hg2⟩
  have heq : parseServerResponse [18, 144, 16, 0, 0, 0, 0, 5, 0, 0, 0, 1, 65]
      = parseServerResponse [18, 144, 16, 0, 0, 0, 0, 6, 0, 0, 0, 1, 65] := by decide
  rw [heq] at hg1
  exact absurd (hg1.symm.trans hg2) (by decide)

/-- C2 amended: for every frame whose byte 0 low nibble is 2, decode reads the
payload size from bytes 8-11 and takes the payload starting at byte 12; the
sequence bytes 4-7 are skipped and do not appear in the decoded result. -/
theorem decode_headerUnits2_payload (data : List Byte)
    (h0 : byteAt data 0 &&& 0x0f = 2)
    (hsize : 0 < readU32be data 8)
    (hfit : 12 + readU32be data 8 ≤ data.length)
    (hcomp : byteAt data 2 &&& 0x0f ≠ GZIP_COMPRESSION) :
    parseServerResponse data =
      some ⟨(byteAt data 1 >>> 4) &&& 0x0f, byteAt data 1 &&& 0x0f,
            (byteAt data 2 >>> 4) &&& 0x0f, byteAt data 2 &&& 0x0f,
            some (stripTrailingZeros ((data.drop 12).take (readU32be data 8)))⟩ := by
  simp only [parseServerResponse, h0, show (2 : Nat) * 4 = 8 from rfl,
    show (8 : Nat) + 4 = 12 from rfl]
  split_ifs <;>
    first
      | rfl
      | omega

/-- Witness for decode_headerUnits2_payload on a 13-byte frame. -/
theorem decode_headerUnits2_payload_witness :
    byteAt [18, 144, 16, 0, 0, 0, 0, 5, 0, 0, 0, 1, 65] 0 &&& 0x0f = 2 ∧
    0 < readU32be [18, 144, 16, 0, 0, 0, 0, 5, 0, 0, 0, 1, 65] 8 ∧
    parseServerResponse [18, 144, 16, 0, 0, 0, 0, 5, 0, 0, 0, 1, 65] =
      some ⟨(byteAt [18, 144, 16, 0, 0, 0, 0, 5, 0, 0, 0, 1, 65] 1 >>> 4) &&& 0x0f,
            byteAt [18, 144, 16, 0, 0, 0, 0, 5, 0, 0, 0, 1, 65] 1 &&& 0x0f,
            (byteAt [18, 144, 16, 0, 0, 0, 0, 5, 0, 0, 0, 1, 65] 2 >>> 4) &&& 0x0f,
            byteAt [18, 144, 16, 0, 0, 0, 0, 5, 0, 0, 0, 1, 65] 2 &&& 0x0f,
            some (stripTrailingZeros
              (([18, 144, 16, 0, 0, 0, 0, 5, 0, 0, 0, 1, 65].drop 12).take
                (readU32be [18, 144, 16, 0, 0, 0, 0, 5, 0, 0, 0, 1, 65] 8)))⟩ :=
  ⟨by decide, by decide,
    decode_headerUnits2_payload [18, 144, 16, 0, 0, 0, 0, 5, 0, 0, 0, 1, 65]
      (by decide) (by decide) (by decide) (by decide)⟩

/-! ### Full-server-response dispatch -/

/-- C3: for every decoded full-server-response frame with a truthy payload
whose JSON parses to a value j, the client fires onFinalResult(text,
utterances) exactly once and no onPartialResult when the definite flag
extracted from j is true, and fires onPartialResult(text) exactly once and no
onFinalResult otherwise. -/
theorem fullResponse_dispatch (parseJson : List Byte → Option Json)
    (st : ClientState) (data : List Byte) (r : ParsedResponse) (p : List Byte)
    (j : Json) (hlen : 4 ≤ data.length)
    (hparse : parseServerResponse data = some r)
    (htype : r.messageType = SERVER_FULL_RESPONSE)
    (hpay : r.payload = some p) (hne : p ≠ [])
    (hjson : parseJson p = some j) :
    (handleBinaryMessage parseJson st data).2 =
      if extractDefinite j then
        [CallbackEvent.onFinalResult (extractText j) (extractUtterances j)]
      else
        [CallbackEvent.onPartialResult (extractText j)] := by
  have hE : p.isEmpty = false := by
    cases p
    · exact absurd rfl hne
    · rfl
  rw [handleBinaryMessage, if_neg (by omega : ¬ data.length < 4), hparse]
  show (handleResponse parseJson st r).2 = _
  rw [handleResponse, if_pos htype, hpay]
  simp only [hjson, hE]
  rw [if_neg (by decide : ¬ false = true)]
  split <;> rfl

/-- Witness for fullResponse_dispatch: a 9-byte full-server-response frame
whose one-byte payload parses (under a concrete parse oracle) to a result
object with definite false; the dispatch fires onPartialResult only. -/
theorem fullResponse_dispatch_witness :
    4 ≤ ([17, 144, 16, 0, 0, 0, 0, 1, 65] : List Byte).length ∧
    (handleBinaryMessage
      (fun p => if p = [65] then
        some (Json.obj (JsonObj.cons keyResult
          (Json.obj (JsonObj.cons keyText (Json.str [104, 105])
            (JsonObj.cons keyDefinite (Json.bool false) JsonObj.nil))) JsonObj.nil))
        else none)
      connectedState [17, 144, 16, 0, 0, 0, 0, 1, 65]).2
      = [CallbackEvent.onPartialResult (Json.str [104, 105])] := by
  refine ⟨by decide, ?_⟩
  have h := fullResponse_dispatch
    (fun p => if p = [65] then
      some (Json.obj (JsonObj.cons keyResult
        (Json.obj (JsonObj.cons keyText (Json.str [104, 105])
          (JsonObj.cons keyDefinite (Json.bool false) JsonObj.nil))) JsonObj.nil))
      else none)
    connectedState [17, 144, 16, 0, 0, 0, 0, 1, 65]
    ⟨9, 0, 1, 0, some [65]⟩ [65]
    (Json.obj (JsonObj.cons keyResult
      (Json.obj (JsonObj.cons keyText (Json.str [104, 105])
        (JsonObj.cons keyDefinite (Json.bool false) JsonObj.nil))) JsonObj.nil))
    (by decide) (by decide) rfl rfl (by decide) rfl
  rw [h]
  rfl

/-! ### Server-error frames -/

/-- C6 counterexample: a server-error frame fires onError but does not change
the lifecycle state; from the recognizing state the client stays in
recognizing, which is not the error state the claim requires. -/
theorem serverError_keeps_state :
    (handleBinaryMessage (fun _ => (none : Option Json)) connectedState
      [17, 240, 16, 0, 0, 0, 0, 1, 65]).1.state = ASRState.recognizing ∧
    ASRState.recognizing ≠ ASRState.error ∧
    (handleBinaryMessage (fun _ => (none : Option Json)) connectedState
      [17, 240, 16, 0, 0, 0, 0, 1, 65]).2 = [CallbackEvent.onError [65]] := by
  refine ⟨rfl, by decide, rfl⟩

/-- C6 amended: whenever the client receives a server-error frame with a
nonempty server-supplied message, it invokes onError with that message
exactly once; the session state is left unchanged — handleBinaryMessage never
transitions the state to error on a server-error frame (only transport-level
socket failures do). -/
theorem serverError_onError_once (parseJson : List Byte → Option Json)
    (st : ClientState) (data : List Byte) (r : ParsedResponse) (p : List Byte)
    (hlen : 4 ≤ data.length)
    (hparse : parseServerResponse data = some r)
    (htype : r.messageType = SERVER_ERROR_RESPONSE)
    (hpay : r.payload = some p) (hne : p ≠ []) :
    handleBinaryMessage parseJson st data = (st, [CallbackEvent.onError p]) := by
  have hE : p.isEmpty = false := by
    cases p
    · exact absurd rfl hne
    · rfl
  rw [handleBinaryMessage, if_neg (by omega : ¬ data.length < 4), hparse]
  show handleResponse parseJson st r = _
  rw [handleResponse,
    if_neg (show ¬ r.messageType = SERVER_FULL_RESPONSE by rw [htype]; decide),
    if_neg (show ¬ r.messageType = SERVER_ACK by rw [htype]; decide),
    if_pos htype, hpay]
  simp [hE]

/-- Witness for serverError_onError_once on a concrete server-error frame. -/
theorem serverError_onError_once_witness :
    4 ≤ ([17, 240, 16, 0, 0, 0, 0, 1, 65] : List Byte).length ∧
    handleBinaryMessage (fun _ => (none : Option Json)) connectedState
      [17, 240, 16, 0, 0, 0, 0, 1, 65] = (connectedState, [CallbackEvent.onError [65]]) :=
  ⟨by decide,
    serverError_onError_once (fun _ => (none : Option Json)) connectedState
      [17, 240, 16, 0, 0, 0, 0, 1, 65] ⟨15, 0, 1, 0, some [65]⟩ [65]
      (by decide) (by decide) rfl rfl (by decide)⟩

/-! ### Relay buffering -/

theorem relayRun_append (st : RelayState) (xs ys : List RelayEvent) :
    relayRun st (xs ++ ys) =
      ((relayRun (relayRun st xs).1 ys).1,
        (relayRun st xs).2 ++ (relayRun (relayRun st xs).1 ys).2) := by
  induction xs generalizing st with
  | nil => simp [relayRun]
  | cons e rest ih => simp [relayRun, ih]

theorem relayRun_buffer (msgs : List RelayMsg) (q : List RelayMsg) :
    relayRun ⟨false, q⟩ (msgs.map RelayEvent.clientMessage) = (⟨false, q ++ msgs⟩, []) := by
  induction msgs generalizing q with
  | nil => simp [relayRun]
  | cons m rest ih => simp [relayRun, relayStep, ih]

/-- C4: every frame received from the caller before the upstream socket is
open is buffered and none is forwarded; on upstream-open all buffered frames
are forwarded to the upstream in original arrival order, each exactly once
and without mutation (the forwarded list is the received list itself), after
which the buffer is empty. -/
theorem relay_flush_in_order (msgs : List RelayMsg) :
    relayRun relayInit (msgs.map RelayEvent.clientMessage) = (⟨false, msgs⟩, []) ∧
    relayRun relayInit (msgs.map RelayEvent.clientMessage ++ [RelayEvent.upstreamOpen])
      = (⟨true, []⟩, msgs) := by
  have hbuf := relayRun_buffer msgs []
  refine ⟨by simpa [relayInit] using hbuf, ?_⟩
  rw [relayRun_append]
  simp [relayInit, hbuf, relayRun, relayStep]

/-! ### stopSession timeout behaviour -/

/-- C7 counterexample: the stop path with no final result sends the terminal
frame, cleans up audio, and silently disconnects exactly when the 8000 ms
bound is reached; the effect list contains no error callback at all, so no
onError of any kind (in particular no Timeout) is fired. -/
theorem stop_timeout_silent :
    (stopSessionReal connectedState false).2 =
      [StopEffect.sendFrame [17, 34, 0, 0, 255, 255, 255, 254],
       StopEffect.cleanupAudio, StopEffect.disconnectAt 8000] ∧
    ((stopSessionReal connectedState false).2.all
      (fun e => !e.isErrorEffect)) = true := by
  constructor <;> decide

/-- C7 amended: after stop() sends the terminal negative-sequence frame and no
server frame subsequently arrives (the captured finalText stays empty), the
client waits the bounded 8-second timeout and force-disconnects exactly when
that wait elapses — at waited = 8000 ms and not before — but fires no error
callback: the timeout disconnect is silent, with no onError(Timeout). -/
theorem stop_timeout_disconnect_at_bound (st : ClientState)
    (h : st.wsOpen = true) :
    (stopSessionReal st false).2 =
      [StopEffect.sendFrame (buildAudioOnlyRequest [] st.sequenceCounter true),
       StopEffect.cleanupAudio, StopEffect.disconnectAt 8000] := by
  have hwait : stopWaitEffects false = [StopEffect.disconnectAt 8000] := by decide
  simp [stopSessionReal, sendAudio, h, hwait]

/-- Witness for stop_timeout_disconnect_at_bound on the post-connect state. -/
theorem stop_timeout_disconnect_at_bound_witness :
    connectedState.wsOpen = true ∧
    (stopSessionReal connectedState false).2 =
      [StopEffect.sendFrame (buildAudioOnlyRequest [] connectedState.sequenceCounter true),
       StopEffect.cleanupAudio, StopEffect.disconnectAt 8000] :=
  ⟨rfl, stop_timeout_disconnect_at_bound connectedState rfl⟩

/-! ### Short and malformed frames -/

/-- C9: every buffer shorter than 4 bytes is rejected before decoding: the
handler returns with the state unchanged and no callback fired. Totality of
the embedded handler models that no exception escapes (the source returns
from the guard before any DataView read, inside a try/catch). -/
theorem short_frame_dropped (parseJson : List Byte → Option Json)
    (st : ClientState) (data : List Byte) (h : data.length < 4) :
    handleBinaryMessage parseJson st data = (st, []) := by
  rw [handleBinaryMessage, if_pos h]

/-- Witness for short_frame_dropped on a 2-byte buffer. -/
theorem short_frame_dropped_witness :
    ([18, 255] : List Byte).length < 4 ∧
    handleBinaryMessage (fun _ => (none : Option Json)) connectedState [18, 255]
      = (connectedState, []) :=
  ⟨by decide,
    short_frame_dropped (fun _ => (none : Option Json)) connectedState [18, 255]
      (by decide)⟩

/-! ### Configuration-frame round trip -/

theorem jsonStringify_obj (fs : JsonObj) :
    jsonStringify (Json.obj fs) = 123 :: jsonStringifyObj fs ++ [125] := rfl

theorem stripTrailingZeros_append_ne (l : List Byte) (a : Byte) (h : a ≠ 0) :
    stripTrailingZeros (l ++ [a]) = l ++ [a] := by
  unfold stripTrailingZeros
  rw [List.reverse_append]
  simp [List.dropWhile_cons, h]

/-- Decoding a frame consisting of the config-request header bytes, the
big-endian length of a payload J, and J itself recovers J, for any J that is
nonempty, does not end in a NUL byte, and fits the 32-bit size field. -/
theorem parse_config_frame (J : List Byte) (hlen : J.length < 2 ^ 32)
    (hL : 0 < J.length) (hstrip : stripTrailingZeros J = J) :
    parseServerResponse ([17, 16, 16, 0] ++ u32be J.length ++ J)
      = some ⟨FULL_CLIENT_REQUEST, NO_SEQUENCE, JSON_SERIALIZATION, NO_COMPRESSION,
          some J⟩ := by
  have hsplit : readU32be ([17, 16, 16, 0] ++ u32be J.length ++ J) 4
      = readU32be (u32be J.length ++ J) 0 := rfl
  have hread : readU32be ([17, 16, 16, 0] ++ u32be J.length ++ J) 4 = J.length := by
    rw [hsplit, readU32be_u32be_append, Nat.mod_eq_of_lt hlen]
  have hlength : ([17, 16, 16, 0] ++ u32be J.length ++ J).length = 8 + J.length := by
    simp [u32be]
    omega
  have hdrop : ([17, 16, 16, 0] ++ u32be J.length ++ J).drop 8 = J := rfl
  have hb0 : byteAt ([17, 16, 16, 0] ++ u32be J.length ++ J) 0 = 17 := rfl
  have hb1 : byteAt ([17, 16, 16, 0] ++ u32be J.length ++ J) 1 = 16 := rfl
  have hb2 : byteAt ([17, 16, 16, 0] ++ u32be J.length ++ J) 2 = 16 := rfl
  simp only [parseServerResponse, hb0, hb1, hb2, hlength, hread, hdrop,
    List.take_length, hstrip,
    show (17 : Nat) &&& 0x0f = 1 by decide,
    show (1 : Nat) * 4 = 4 from rfl,
    show (4 : Nat) + 4 = 8 from rfl,
    show (16 : Nat) >>> 4 &&& 0x0f = 1 by decide,
    show (16 : Nat) &&& 0x0f = 0 by decide]
  split_ifs <;>
    first
    | (exfalso; omega)
    | exact absurd ⟨hL, le_refl _⟩
        ‹¬(0 < J.length ∧ 8 + J.length ≤ 8 + J.length)›
    | exact absurd ‹(0 : Nat) = GZIP_COMPRESSION› (by decide)
    | rfl

/-- C8: decoding the frame produced by the configuration-frame encoder yields
a payload byte-identical to the UTF-8 JSON serialization of the configuration
object, for every configuration object (any JSON object mapping; the size
bound keeps the unsigned 32-bit payload-size field from wrapping and holds
for every realistic configuration). -/
theorem config_payload_roundtrip (fields : JsonObj)
    (hlen : (jsonStringify (Json.obj fields)).length < 2 ^ 32) :
    parseServerResponse (buildFullClientRequest (Json.obj fields)) =
      some ⟨FULL_CLIENT_REQUEST, NO_SEQUENCE, JSON_SERIALIZATION, NO_COMPRESSION,
        some (jsonStringify (Json.obj fields))⟩ := by
  have hdata : buildFullClientRequest (Json.obj fields)
      = [17, 16, 16, 0] ++ u32be (jsonStringify (Json.obj fields)).length
          ++ jsonStringify (Json.obj fields) := rfl
  have hL : 0 < (jsonStringify (Json.obj fields)).length := by
    rw [jsonStringify_obj]
    simp
  have hstrip : stripTrailingZeros (jsonStringify (Json.obj fields))
      = jsonStringify (Json.obj fields) := by
    rw [jsonStringify_obj]
    have hassoc : (123 : Byte) :: jsonStringifyObj fields ++ [125]
        = ((123 : Byte) :: jsonStringifyObj fields) ++ [125] := by simp
    rw [hassoc, stripTrailingZeros_append_ne _ _ (by decide)]
  rw [hdata, parse_config_frame _ hlen hL hstrip]

/-- Witness for config_payload_roundtrip on the empty configuration object. -/
theorem config_payload_roundtrip_witness :
    (jsonStringify (Json.obj JsonObj.nil)).length < 2 ^ 32 ∧
    parseServerResponse (buildFullClientRequest (Json.obj JsonObj.nil)) =
      some ⟨FULL_CLIENT_REQUEST, NO_SEQUENCE, JSON_SERIALIZATION, NO_COMPRESSION,
        some (jsonStringify (Json.obj JsonObj.nil))⟩ :=
  ⟨by decide, config_payload_roundtrip JsonObj.nil (by decide)⟩

/-! ### Parser totality and null-payload conditions -/

/-- C10: for every buffer of length at least 4, parseServerResponse returns a
decoded record (never a thrown error): the four header fields are always
decoded, and the payload is none whenever the buffer is too short to contain
the payload-size field at offset headerUnits * 4 + 4, the declared payload
size is 0, or the declared payload extends past the end of the buffer. -/
theorem parse_total_null_payload_conditions (data : List Byte)
    (h : 4 ≤ data.length) :
    ∃ r, parseServerResponse data = some r ∧
      r.messageType = (byteAt data 1 >>> 4) &&& 0x0f ∧
      r.messageTypeFlags = byteAt data 1 &&& 0x0f ∧
      r.serializationMethod = (byteAt data 2 >>> 4) &&& 0x0f ∧
      r.compressionType = byteAt data 2 &&& 0x0f ∧
      ((data.length < (byteAt data 0 &&& 0x0f) * 4 + 4 ∨
        readU32be data ((byteAt data 0 &&& 0x0f) * 4) = 0 ∨
        data.length < (byteAt data 0 &&& 0x0f) * 4 + 4
          + readU32be data ((byteAt data 0 &&& 0x0f) * 4)) →
        r.payload = none) := by
  simp only [parseServerResponse]
  split_ifs with h1 h2 h3 h4
  · exact absurd h1 (by omega)
  · exact ⟨_, rfl, rfl, rfl, rfl, rfl, fun _ => rfl⟩
  · exact ⟨_, rfl, rfl, rfl, rfl, rfl, fun hd => absurd hd (by omega)⟩
  · exact ⟨_, rfl, rfl, rfl, rfl, rfl, fun hd => absurd hd (by omega)⟩
  · exact ⟨_, rfl, rfl, rfl, rfl, rfl, fun _ => rfl⟩

/-- Witness for parse_total_null_payload_conditions on an all-zero buffer. -/
theorem parse_total_null_payload_conditions_witness :
    4 ≤ ([0, 0, 0, 0] : List Byte).length ∧
    ∃ r, parseServerResponse [0, 0, 0, 0] = some r ∧
      r.messageType = (byteAt [0, 0, 0, 0] 1 >>> 4) &&& 0x0f ∧
      r.messageTypeFlags = byteAt [0, 0, 0, 0] 1 &&& 0x0f ∧
      r.serializationMethod = (byteAt [0, 0, 0, 0] 2 >>> 4) &&& 0x0f ∧
      r.compressionType = byteAt [0, 0, 0, 0] 2 &&& 0x0f ∧
      ((([0, 0, 0, 0] : List Byte).length < (byteAt [0, 0, 0, 0] 0 &&& 0x0f) * 4 + 4 ∨
        readU32be [0, 0, 0, 0] ((byteAt [0, 0, 0, 0] 0 &&& 0x0f) * 4) = 0 ∨
        ([0, 0, 0, 0] : List Byte).length < (byteAt [0, 0, 0, 0] 0 &&& 0x0f) * 4 + 4
          + readU32be [0, 0, 0, 0] ((byteAt [0, 0, 0, 0] 0 &&& 0x0f) * 4)) →
        r.payload = none) :=
  ⟨by decide, parse_total_null_payload_conditions [0, 0, 0, 0] (by decide)⟩

end Resonance
